import Mathlib

/-!
Verification development for the AIRA Semantic Scholar MCP server core.

The agent-facing entry point `src/index.ts` is embedded directly (the
`papers-batch` tool handler's size validation, its field projection and the
attributes its formatter reads, and the `limit || 10` defaulting of the two
search tools).  The query-filter builder, batch endpoint, pagination
normalizer and rate limiter live in `lib/api/semanticScholar` which is not
part of this tree; those components are modelled from the specification, and
each such definition is marked `Modelled from the spec:` in its doc comment.
-/

/-- Modelled from the spec: a Paper record (`lib/api/semanticScholar/types.js`
is not in this tree).  Papers are externally defined and partially populated;
every optional attribute is absent-by-default.  Only the attributes the
embedded handlers read are kept. -/
structure Paper where
  title : Option String := none
  year : Option Nat := none
  authors : Option (List String) := none
  venue : Option String := none
  publicationVenue : Option String := none
  citationCount : Option Nat := none
  url : Option String := none
deriving DecidableEq, Repr

/-- Outcome of the `papers-batch` tool handler before any network activity:
either an error result returned to the caller without dispatching, or a
single dispatched batch request carrying the identifier list and the
requested field projection (src/index.ts, lines 1071-1093). -/
inductive BatchAction where
  | reject (message : String)
  | dispatch (ids : List String) (fields : String)
deriving DecidableEq, Repr

/-- The `papers-batch` tool handler's validation and dispatch logic
(src/index.ts, lines 1071-1093): an empty identifier list and a list of more
than 500 identifiers are rejected with an error result before any request is
dispatched; otherwise a single batch request is dispatched. -/
def papersBatchHandler (paperIds : List String) : BatchAction :=
  if paperIds.length = 0 then
    .reject "No paper IDs provided."
  else if paperIds.length > 500 then
    .reject "Too many paper IDs. Maximum is 500."
  else
    .dispatch paperIds "title,authors,citations.title,citations.abstract"

/-- Number of batch requests a `BatchAction` dispatches. -/
def dispatchCount : BatchAction → Nat
  | .reject _ => 0
  | .dispatch _ _ => 1

/-- Modelled from the spec: `getPapersBatch`
(`lib/api/semanticScholar/endpoints.js` is not in this tree).  The result is
an ordered sequence aligned positionally with the input identifiers; an
identifier the service cannot resolve yields an absent (not error) slot at
its position.  `resolve` abstracts upstream identifier resolution. -/
def getPapersBatch (resolve : String → Option Paper) (ids : List String) :
    List (Option Paper) :=
  ids.map resolve

/-- The `papers-batch` tool end to end: the handler's validation followed by
the (spec-modelled) batch endpoint; `none` when the handler rejected the call
without dispatching. -/
def papersBatchResults (resolve : String → Option Paper) (ids : List String) :
    Option (List (Option Paper)) :=
  match papersBatchHandler ids with
  | .reject _ => none
  | .dispatch ids' _ => some (getPapersBatch resolve ids')

/-- Field projection the `papers-batch` handler sends with its request
(src/index.ts line 1092, the comma-separated value
"title,authors,citations.title,citations.abstract" split at commas). -/
def papersBatchRequestedFields : List String :=
  ["title", "authors", "citations.title", "citations.abstract"]

/-- Record attributes the `papers-batch` handler's formatter reads from each
returned paper (src/index.ts lines 1106-1123: `paper.title`, `paper.year`,
`paper.authors`, `paper.venue`, `paper.publicationVenue`,
`paper.citationCount`, `paper.url`). -/
def papersBatchReadAttributes : List String :=
  ["title", "year", "authors", "venue", "publicationVenue", "citationCount",
   "url"]

/-- Modelled from the spec: a raw list response from a list-returning
endpoint, carrying `data` and an optional upstream-reported `total`. -/
structure RawListResponse (α : Type) where
  data : List α
  total : Option Nat
deriving DecidableEq, Repr

/-- Modelled from the spec: the uniform page shape produced by the
Pagination Normalizer. -/
structure Page (α : Type) where
  data : List α
  total : Option Nat
  next : Option Nat
deriving DecidableEq, Repr

/-- Whether more results may exist beyond the returned page: when `total` is
known, `offset + data.length < total`; when `total` is unknown, a full page
(`data.length = limit`) signals that more may exist. -/
def hasMore (offset limit len : Nat) : Option Nat → Bool
  | some t => decide (offset + len < t)
  | none => decide (len = limit)

/-- Modelled from the spec: the Pagination Normalizer (not in this tree).
Given a raw list response and the offset/limit that produced it, computes
`next = offset + data.length` when more results may exist, else `next`
absent; `data` and `total` pass through unchanged. -/
def normalizePage {α : Type} (offset limit : Nat) (raw : RawListResponse α) :
    Page α :=
  { data := raw.data
    total := raw.total
    next :=
      if hasMore offset limit raw.data.length raw.total then
        some (offset + raw.data.length)
      else
        none }

/-- The raw list response underlying a normalized page (`next` dropped). -/
def Page.toRaw {α : Type} (p : Page α) : RawListResponse α :=
  { data := p.data, total := p.total }

/-- Minimum inter-request interval of the standard channel in logical
milliseconds (10 operations per second). -/
def standardIntervalMs : Nat := 100

/-- Minimum inter-request interval of the batch channel in logical
milliseconds (1 operation per second). -/
def batchIntervalMs : Nat := 1000

/-- Modelled from the spec: the Rate Limiter's per-channel grant schedule
(the rate-limiter module is not in this tree).  The channel state is the
timestamp of the last grant; each `acquire` is served in first-requested,
first-granted order and returns at the later of its request time and
last-grant + interval.  Times are logical milliseconds; the input list holds
the request times in arrival order and the output the grant times in the
same order. -/
def grantTimes (interval : Nat) : Option Nat → List Nat → List Nat
  | _, [] => []
  | last, t :: ts =>
    let g :=
      match last with
      | none => t
      | some l => max t (l + interval)
    g :: grantTimes interval (some g) ts

/-- A resolvable sample paper for the witness. -/
def samplePaper : Paper :=
  { title := some "Attention Is All You Need" }

/-- Sample resolution: "valid" resolves, anything else does not. -/
def sampleResolve : String → Option Paper :=
  fun s => if s = "valid" then some samplePaper else none

/-- Sort keys accepted by the search tools (src/index.ts line 430 and the
spec's SearchFilter data model). -/
inductive SortKey where
  | relevance
  | citationCount
  | year
deriving DecidableEq, Repr

/-- Sort orders accepted by the search tools (src/index.ts line 435). -/
inductive SortOrder where
  | asc
  | desc
deriving DecidableEq, Repr

/-- Modelled from the spec: the SearchFilter builder state
(`lib/api/semanticScholar/filters.js` is not in this tree).  A mutable
fluent builder in the source; embedded as an immutable record with each
configuration method a pure update. -/
structure SearchFilter where
  query : String
  fields : List String := []
  offset : Nat := 0
  limit : Nat := 10
  yearRange : Option (Option Nat × Option Nat) := none
  minCitations : Option Nat := none
  openAccessOnly : Bool := false
  fieldsOfStudy : Option (List String) := none
  publicationTypes : Option (List String) := none
  sort : Option (SortKey × SortOrder) := none
deriving DecidableEq, Repr

/-- Modelled from the spec: `createFilter(query)` starts a builder holding
the free-text query and no other criteria. -/
def createFilter (query : String) : SearchFilter :=
  { query := query }

/-- Modelled from the spec: `withQuery(text)` replaces the free-text query. -/
def SearchFilter.withQuery (f : SearchFilter) (text : String) : SearchFilter :=
  { f with query := text }

/-- Modelled from the spec: `withFields(list)` sets the exact projection of
attributes returned; duplicates are deduplicated. -/
def SearchFilter.withFields (f : SearchFilter) (l : List String) :
    SearchFilter :=
  { f with fields := l.dedup }

/-- Modelled from the spec: `withPagination(offset, limit)` stores the
caller's offset and limit verbatim; limit enforcement against the service
ceiling happens only at compile time. -/
def SearchFilter.withPagination (f : SearchFilter) (offset limit : Nat) :
    SearchFilter :=
  { f with offset := offset, limit := limit }

/-- Modelled from the spec: `withYearRange(start?, end?)` sets the year-range
criterion, open on either end; calling again overwrites. -/
def SearchFilter.withYearRange (f : SearchFilter) (start stop : Option Nat) :
    SearchFilter :=
  { f with yearRange := some (start, stop) }

/-- Modelled from the spec: `withMinCitations(n)` sets the citation floor. -/
def SearchFilter.withMinCitations (f : SearchFilter) (n : Nat) : SearchFilter :=
  { f with minCitations := some n }

/-- Modelled from the spec: `withOpenAccessOnly()` sets the open-access flag. -/
def SearchFilter.withOpenAccessOnly (f : SearchFilter) : SearchFilter :=
  { f with openAccessOnly := true }

/-- Modelled from the spec: `withFieldsOfStudy(list)` sets the
field-of-study restriction; calling again overwrites. -/
def SearchFilter.withFieldsOfStudy (f : SearchFilter) (l : List String) :
    SearchFilter :=
  { f with fieldsOfStudy := some l }

/-- Modelled from the spec: `withPublicationTypes(list)` sets the
publication-type restriction; calling again overwrites. -/
def SearchFilter.withPublicationTypes (f : SearchFilter) (l : List String) :
    SearchFilter :=
  { f with publicationTypes := some l }

/-- Modelled from the spec: `withSort(key, order)` sets the sort criterion. -/
def SearchFilter.withSort (f : SearchFilter) (key : SortKey)
    (ord : SortOrder) : SearchFilter :=
  { f with sort := some (key, ord) }

/-- Whether at least one structural filter in the sense of the spec's
`withQuery` rule is set: `fieldsOfStudy`, `yearRange`, `minCitations` or
`openAccessOnly`. -/
def hasStructuralCriterion (f : SearchFilter) : Bool :=
  f.fieldsOfStudy.isSome || f.yearRange.isSome || f.minCitations.isSome ||
    f.openAccessOnly

/-- Invalid filter states caught at compile time (spec error taxonomy):
empty query with no structural filter, empty field list, limit above the
service ceiling. -/
inductive ConfigurationError where
  | emptyQuery
  | emptyFields
  | limitExceeded
deriving DecidableEq, Repr

/-- Service ceiling on `limit` for search operations. -/
def searchLimitCeiling : Nat := 100

/-- Service ceiling on `limit` for batch operations. -/
def batchLimitCeiling : Nat := 500

/-- Decimal digit characters of `n`, most significant first, by structural
fuel (`fuel ≥ n` suffices); empty for `n = 0`. -/
def natCharsAux : Nat → Nat → List Char
  | 0, _ => []
  | fuel + 1, n =>
    if n = 0 then [] else natCharsAux fuel (n / 10) ++ [Nat.digitChar (n % 10)]

/-- Decimal rendering of a natural number as characters ("0" for zero). -/
def natChars (n : Nat) : List Char :=
  if n = 0 then ['0'] else natCharsAux n n

/-- Reads decimal digit characters left to right, accumulating the value;
fails on a non-digit character. -/
def charsNatAux (acc : Nat) : List Char → Option Nat
  | [] => some acc
  | c :: cs =>
    if c.isDigit then charsNatAux (acc * 10 + (c.toNat - 48)) cs else none

/-- Parses a nonempty all-digit character list as a natural number. -/
def charsNat? (cs : List Char) : Option Nat :=
  if cs = [] then none else charsNatAux 0 cs

/-- Splits a character list at every occurrence of the separator; inverse of
`joinCh` on separator-free pieces. -/
def splitCh (c : Char) : List Char → List (List Char)
  | [] => [[]]
  | x :: xs =>
    match splitCh c xs with
    | [] => [[x]]
    | h :: t => if x = c then [] :: h :: t else (x :: h) :: t

/-- Joins character lists with a separator character between them. -/
def joinCh (c : Char) : List (List Char) → List Char
  | [] => []
  | [x] => x
  | x :: y :: t => x ++ c :: joinCh c (y :: t)

/-- Rendering of an optional year bound: digits, or empty when the bound is
open. -/
def optNatChars : Option Nat → List Char
  | none => []
  | some n => natChars n

/-- Rendering of a sort key in the upstream grammar. -/
def sortKeyChars : SortKey → List Char
  | .relevance => "relevance".data
  | .citationCount => "citationCount".data
  | .year => "year".data

/-- Rendering of a sort order in the upstream grammar. -/
def sortOrderChars : SortOrder → List Char
  | .asc => "asc".data
  | .desc => "desc".data

/-- The compiled free-text query: the wildcard is substituted by the builder
when criteria-only filtering is requested without free text (spec section 3
invariant and section 9). -/
def effectiveQueryChars (f : SearchFilter) : List Char :=
  if f.query = "" then ['*'] else f.query.data

/-- Always-present compiled parameters: query, comma-joined field list, and
pagination. -/
def baseParams (f : SearchFilter) : List (String × List Char) :=
  [("query", effectiveQueryChars f),
   ("fields", joinCh ',' (f.fields.map String.data)),
   ("offset", natChars f.offset),
   ("limit", natChars f.limit)]

/-- Compiled form of the year-range criterion: `year=start-end`, open on
either end. -/
def yearBlock (f : SearchFilter) : List (String × List Char) :=
  match f.yearRange with
  | none => []
  | some (s, e) => [("year", optNatChars s ++ '-' :: optNatChars e)]

/-- Compiled form of the citation-floor criterion. -/
def minCitBlock (f : SearchFilter) : List (String × List Char) :=
  match f.minCitations with
  | none => []
  | some n => [("minCitationCount", natChars n)]

/-- Compiled form of the open-access flag, rendered only when true. -/
def oaBlock (f : SearchFilter) : List (String × List Char) :=
  if f.openAccessOnly then [("openAccessPdf", [])] else []

/-- Compiled form of the fields-of-study restriction, comma-joined. -/
def fosBlock (f : SearchFilter) : List (String × List Char) :=
  match f.fieldsOfStudy with
  | none => []
  | some l => [("fieldsOfStudy", joinCh ',' (l.map String.data))]

/-- Compiled form of the publication-type restriction, comma-joined. -/
def ptBlock (f : SearchFilter) : List (String × List Char) :=
  match f.publicationTypes with
  | none => []
  | some l => [("publicationTypes", joinCh ',' (l.map String.data))]

/-- Compiled form of the sort criterion: `key:order`. -/
def sortBlock (f : SearchFilter) : List (String × List Char) :=
  match f.sort with
  | none => []
  | some (k, o) => [("sort", sortKeyChars k ++ ':' :: sortOrderChars o)]

/-- The compiled query parameters of a filter in the upstream grammar. -/
def paramsOf (f : SearchFilter) : List (String × List Char) :=
  baseParams f ++ (yearBlock f ++ (minCitBlock f ++ (oaBlock f ++
    (fosBlock f ++ (ptBlock f ++ sortBlock f)))))

/-- Modelled from the spec: `build()` against a given service ceiling.
Validation is deferred to this single compile point: an empty query with no
structural filter, an empty field list, or a limit above the ceiling raises
a `ConfigurationError`; otherwise the accumulated state is compiled into the
upstream grammar. -/
def buildParamsWith (ceiling : Nat) (f : SearchFilter) :
    Except ConfigurationError (List (String × List Char)) :=
  if f.query = "" ∧ hasStructuralCriterion f = false then
    .error .emptyQuery
  else if f.fields = [] then
    .error .emptyFields
  else if ceiling < f.limit then
    .error .limitExceeded
  else
    .ok (paramsOf f)

/-- Modelled from the spec: `build()` for plain search calls (ceiling 100). -/
def SearchFilter.build (f : SearchFilter) :
    Except ConfigurationError (List (String × List Char)) :=
  buildParamsWith searchLimitCeiling f

/-- First value bound to a key in a compiled parameter list. -/
def findParam : List (String × List Char) → String → Option (List Char)
  | [], _ => none
  | (k, v) :: ps, key => if k = key then some v else findParam ps key

/-- Field projection used by both search tools (src/index.ts lines 312-324
and 454-466). -/
def searchToolFields : List String :=
  ["paperId", "title", "abstract", "authors", "year", "venue",
   "publicationVenue", "externalIds", "citationCount", "url", "isOpenAccess"]

/-- JavaScript `limit || dflt` on the tools' non-negative numeric limit:
0 is falsy and is replaced by the default. -/
def jsOrDefault (limit dflt : Nat) : Nat :=
  if limit = 0 then dflt else limit

/-- The filter built by the papers-search-basic handler
(src/index.ts lines 309-325). -/
def papersSearchBasicFilter (query : String) (limit : Nat) : SearchFilter :=
  ((createFilter query).withFields searchToolFields).withPagination 0
    (jsOrDefault limit 10)

/-- The filter built by the papers-search-advanced handler
(src/index.ts lines 440-491): the same base as the basic tool followed by
the conditionally applied structural criteria. -/
def papersSearchAdvancedFilter (query : String) (yearStart yearEnd : Option Nat)
    (minCitations : Option Nat) (openAccessOnly : Bool) (limit : Nat)
    (fieldsOfStudy publicationTypes : Option (List String))
    (sortBy : Option SortKey) (ord : SortOrder) : SearchFilter :=
  let f0 := ((createFilter query).withFields searchToolFields).withPagination 0
    (jsOrDefault limit 10)
  let f1 :=
    if yearStart.isSome || yearEnd.isSome then f0.withYearRange yearStart yearEnd
    else f0
  let f2 :=
    match minCitations with
    | some n => f1.withMinCitations n
    | none => f1
  let f3 := if openAccessOnly then f2.withOpenAccessOnly else f2
  let f4 :=
    match fieldsOfStudy with
    | some l => if 0 < l.length then f3.withFieldsOfStudy l else f3
    | none => f3
  let f5 :=
    match publicationTypes with
    | some l => if 0 < l.length then f4.withPublicationTypes l else f4
    | none => f4
  match sortBy with
  | some k => f5.withSort k ord
  | none => f5

/-- An empty-query filter with only the open-access structural criterion,
as in the spec's example. -/
def sampleEmptyQueryFilter : SearchFilter :=
  ((createFilter "").withFields ["title", "year"]).withOpenAccessOnly

/-- A filter whose stored limit exceeds the search ceiling. -/
def sampleOverLimitFilter : SearchFilter :=
  ((createFilter "x").withFields ["title"]).withPagination 0 101

/-- A valid filter within the search ceiling. -/
def sampleOkFilter : SearchFilter :=
  (createFilter "x").withFields ["title"]

/-- Parses one side of the `year=start-end` interval: empty means the bound
is open, digits give the bound. -/
def parseYearPiece (cs : List Char) : Option (Option Nat) :=
  if cs = [] then some none
  else
    match charsNat? cs with
    | some n => some (some n)
    | none => none

/-- Parses a `year` value of the grammar: `start-end` open on either end. -/
def parseYearVal (v : List Char) : Option (Option Nat × Option Nat) :=
  match splitCh '-' v with
  | [a, b] =>
    match parseYearPiece a, parseYearPiece b with
    | some s, some e => some (s, e)
    | _, _ => none
  | _ => none

/-- Parses a comma-joined token list of the grammar. -/
def parseTokens (v : List Char) : Option (List String) :=
  some ((splitCh ',' v).map fun cs => String.mk cs)

/-- Reads a sort key of the grammar. -/
def sortKeyOfChars (a : List Char) : Option SortKey :=
  if a = "relevance".data then some .relevance
  else if a = "citationCount".data then some .citationCount
  else if a = "year".data then some .year
  else none

/-- Reads a sort order of the grammar. -/
def sortOrderOfChars (a : List Char) : Option SortOrder :=
  if a = "asc".data then some .asc
  else if a = "desc".data then some .desc
  else none

/-- Parses a `sort` value of the grammar: `key:order`. -/
def parseSortVal (v : List Char) : Option (SortKey × SortOrder) :=
  match splitCh ':' v with
  | [a, b] =>
    match sortKeyOfChars a, sortOrderOfChars b with
    | some k, some o => some (k, o)
    | _, _ => none
  | _ => none

/-- Parses an optional parameter: absent key means the criterion is unset;
a present key must parse. -/
def parseOptParam {β : Type} (ps : List (String × List Char)) (key : String)
    (pv : List Char → Option β) : Option (Option β) :=
  match findParam ps key with
  | none => some none
  | some v => (pv v).map some

/-- The structural criteria of a filter, as recoverable from the compiled
grammar. -/
structure StructuralCriteria where
  yearRange : Option (Option Nat × Option Nat)
  minCitations : Option Nat
  openAccessOnly : Bool
  fieldsOfStudy : Option (List String)
  publicationTypes : Option (List String)
  sort : Option (SortKey × SortOrder)
deriving DecidableEq, Repr

/-- The structural criteria set on a filter. -/
def structuralOf (f : SearchFilter) : StructuralCriteria :=
  { yearRange := f.yearRange
    minCitations := f.minCitations
    openAccessOnly := f.openAccessOnly
    fieldsOfStudy := f.fieldsOfStudy
    publicationTypes := f.publicationTypes
    sort := f.sort }

/-- Parses the structural criteria back out of a compiled parameter list
under the upstream grammar. -/
def parseStructural (ps : List (String × List Char)) :
    Option StructuralCriteria :=
  (parseOptParam ps "year" parseYearVal).bind fun yr =>
  (parseOptParam ps "minCitationCount" charsNat?).bind fun mc =>
  (parseOptParam ps "fieldsOfStudy" parseTokens).bind fun fos =>
  (parseOptParam ps "publicationTypes" parseTokens).bind fun pt =>
  (parseOptParam ps "sort" parseSortVal).bind fun s =>
  some
    { yearRange := yr
      minCitations := mc
      openAccessOnly := (findParam ps "openAccessPdf").isSome
      fieldsOfStudy := fos
      publicationTypes := pt
      sort := s }

/-- Validity of an optional token-list criterion for the grammar round trip:
the enum-constrained tokens contain no comma and the list, when set, is
nonempty. -/
def validTokens : Option (List String) → Prop
  | none => True
  | some l => l ≠ [] ∧ ∀ s ∈ l, ',' ∉ s.data

/-- A filter with every structural criterion set, for the round-trip
witness. -/
def sampleFullFilter : SearchFilter :=
  ((((((((createFilter "transformers").withFields
    ["title", "year"]).withPagination 0 20).withYearRange
    (some 2019) (some 2024)).withMinCitations 50).withOpenAccessOnly
    ).withFieldsOfStudy ["Computer Science", "Mathematics"]
    ).withPublicationTypes ["JournalArticle"]).withSort .citationCount .desc

theorem grantTimes_length (interval : Nat) (last : Option Nat)
    (ts : List Nat) : (grantTimes interval last ts).length = ts.length := by
  induction ts generalizing last with
  | nil => rfl
  | cons t ts ih => simp [grantTimes, ih]

theorem grantTimes_ge (interval : Nat) (ts : List Nat) :
    ∀ g : Nat, ∀ b ∈ grantTimes interval (some g) ts, g + interval ≤ b := by
  induction ts with
  | nil => intro g b hb; simp [grantTimes] at hb
  | cons t ts ih =>
    intro g b hb
    simp only [grantTimes, List.mem_cons] at hb
    rcases hb with rfl | hb
    · exact le_max_right t (g + interval)
    · have h1 := ih (max t (g + interval)) b hb
      have h2 := le_max_right t (g + interval)
      omega

theorem grantTimes_pairwise (interval : Nat) (last : Option Nat)
    (ts : List Nat) :
    (grantTimes interval last ts).Pairwise (fun a b => a + interval ≤ b) := by
  cases ts with
  | nil => exact List.Pairwise.nil
  | cons t ts =>
    simp only [grantTimes, List.pairwise_cons]
    exact ⟨fun b hb => grantTimes_ge interval ts _ b hb,
      grantTimes_pairwise interval (some _) ts⟩

theorem grantTimes_ge_request (interval : Nat) (last : Option Nat)
    (ts : List Nat) :
    ∀ i : Nat, ∀ t : Nat, ts[i]? = some t →
      ∃ g : Nat, (grantTimes interval last ts)[i]? = some g ∧ t ≤ g := by
  induction ts generalizing last with
  | nil => intro i t h; simp at h
  | cons t0 ts ih =>
    intro i t h
    cases i with
    | zero =>
      have h0 : t0 = t := by simpa using h
      subst h0
      cases last with
      | none => exact ⟨t0, by simp [grantTimes], le_rfl⟩
      | some l =>
        exact ⟨max t0 (l + interval), by simp [grantTimes],
          le_max_left t0 (l + interval)⟩
    | succ i =>
      simp only [List.getElem?_cons_succ] at h
      simpa [grantTimes] using ih (some _) i t h

/-- C1: the papers-batch handler rejects an empty identifier list and a list
of more than 500 identifiers with an error result and dispatches nothing;
with exactly 500 identifiers it dispatches exactly one batch request. -/
theorem papersBatch_sizeValidation :
    (∀ ids : List String, ids.length = 0 →
      papersBatchHandler ids = .reject "No paper IDs provided." ∧
      dispatchCount (papersBatchHandler ids) = 0) ∧
    (∀ ids : List String, ids.length > 500 →
      papersBatchHandler ids = .reject "Too many paper IDs. Maximum is 500." ∧
      dispatchCount (papersBatchHandler ids) = 0) ∧
    (∀ ids : List String, ids.length = 500 →
      dispatchCount (papersBatchHandler ids) = 1) := by
  refine ⟨?_, ?_, ?_⟩
  · intro ids h
    simp [papersBatchHandler, h, dispatchCount]
  · intro ids h
    have h0 : ¬ ids.length = 0 := by omega
    simp [papersBatchHandler, h0, h, dispatchCount]
  · intro ids h
    simp [papersBatchHandler, h, dispatchCount]

theorem papersBatch_sizeValidation_witness :
    dispatchCount (papersBatchHandler ([] : List String)) = 0 ∧
    dispatchCount (papersBatchHandler (List.replicate 501 "x")) = 0 ∧
    dispatchCount (papersBatchHandler (List.replicate 500 "x")) = 1 :=
  ⟨(papersBatch_sizeValidation.1 [] rfl).2,
   (papersBatch_sizeValidation.2.1 (List.replicate 501 "x")
     (by rw [List.length_replicate]; omega)).2,
   papersBatch_sizeValidation.2.2 (List.replicate 500 "x")
     (by rw [List.length_replicate])⟩

/-- C2: for a valid identifier list the batch result has the same length as
the input and slot i corresponds to input identifier i: an unresolvable
identifier yields an absent (not error) slot at its own position, and
resolved slots are never compacted or reordered. -/
theorem papersBatch_positionalAlignment (resolve : String → Option Paper)
    (ids : List String) (h1 : 0 < ids.length) (h2 : ids.length ≤ 500) :
    papersBatchResults resolve ids = some (getPapersBatch resolve ids) ∧
    (getPapersBatch resolve ids).length = ids.length ∧
    ∀ i : Nat, (getPapersBatch resolve ids)[i]? = (ids[i]?).map resolve := by
  refine ⟨?_, by simp [getPapersBatch], ?_⟩
  · have h0 : ¬ ids.length = 0 := by omega
    have h5 : ¬ ids.length > 500 := by omega
    simp [papersBatchResults, papersBatchHandler, h0, h5]
  · intro i
    simp [getPapersBatch]

theorem papersBatch_positionalAlignment_witness :
    (papersBatchResults sampleResolve ["valid", "bogus"] =
        some (getPapersBatch sampleResolve ["valid", "bogus"]) ∧
      (getPapersBatch sampleResolve ["valid", "bogus"]).length =
        (["valid", "bogus"] : List String).length ∧
      ∀ i : Nat, (getPapersBatch sampleResolve ["valid", "bogus"])[i]? =
        ((["valid", "bogus"] : List String)[i]?).map sampleResolve) ∧
    getPapersBatch sampleResolve ["valid", "bogus"] =
      [some samplePaper, none] :=
  ⟨papersBatch_positionalAlignment sampleResolve ["valid", "bogus"]
      (by decide) (by decide),
   by rfl⟩

/-- C3: the pagination normalizer returns `next = offset + data.length`
exactly when `offset + data.length < total`, or when `total` is unknown and
the page is full (`data.length = limit`); otherwise `next` is absent;
including the spec's two concrete instances. -/
theorem normalizePage_next_characterization :
    (∀ (offset limit : Nat) (raw : RawListResponse Nat),
      ((normalizePage offset limit raw).next =
          some (offset + raw.data.length) ↔
        (match raw.total with
         | some t => offset + raw.data.length < t
         | none => raw.data.length = limit)) ∧
      ((normalizePage offset limit raw).next = none ↔
        ¬ (match raw.total with
           | some t => offset + raw.data.length < t
           | none => raw.data.length = limit))) ∧
    (normalizePage 0 10 ⟨List.replicate 10 0, some 25⟩).next = some 10 ∧
    (normalizePage 20 10 ⟨List.replicate 5 0, some 25⟩).next = none := by
  refine ⟨?_, by decide, by decide⟩
  intro offset limit raw
  cases htot : raw.total with
  | none =>
    by_cases h : raw.data.length = limit <;>
      simp [normalizePage, hasMore, htot, h]
  | some t =>
    by_cases h : offset + raw.data.length < t <;>
      simp [normalizePage, hasMore, htot, h]

/-- C6: on each rate-limiter channel, any two grants are spaced at least the
channel's minimum interval apart (100 logical ms on the standard channel,
1000 on the batch channel), every request receives a grant in
first-requested, first-granted order, and no grant precedes its request. -/
theorem rateLimiter_spacing :
    (∀ reqs : List Nat,
      (grantTimes standardIntervalMs none reqs).Pairwise
        (fun a b => a + 100 ≤ b) ∧
      (grantTimes standardIntervalMs none reqs).length = reqs.length ∧
      ∀ i t : Nat, reqs[i]? = some t →
        ∃ g : Nat, (grantTimes standardIntervalMs none reqs)[i]? = some g ∧
          t ≤ g) ∧
    (∀ reqs : List Nat,
      (grantTimes batchIntervalMs none reqs).Pairwise
        (fun a b => a + 1000 ≤ b) ∧
      (grantTimes batchIntervalMs none reqs).length = reqs.length ∧
      ∀ i t : Nat, reqs[i]? = some t →
        ∃ g : Nat, (grantTimes batchIntervalMs none reqs)[i]? = some g ∧
          t ≤ g) := by
  constructor
  · intro reqs
    exact ⟨grantTimes_pairwise standardIntervalMs none reqs,
      grantTimes_length standardIntervalMs none reqs,
      grantTimes_ge_request standardIntervalMs none reqs⟩
  · intro reqs
    exact ⟨grantTimes_pairwise batchIntervalMs none reqs,
      grantTimes_length batchIntervalMs none reqs,
      grantTimes_ge_request batchIntervalMs none reqs⟩

theorem rateLimiter_spacing_witness :
    (grantTimes standardIntervalMs none [0, 0, 0]).Pairwise
      (fun a b => a + 100 ≤ b) ∧
    (∃ g : Nat, (grantTimes standardIntervalMs none [0, 0, 0])[1]? = some g ∧
      0 ≤ g) ∧
    grantTimes standardIntervalMs none [0, 0, 0] = [0, 100, 200] :=
  ⟨(rateLimiter_spacing.1 [0, 0, 0]).1,
   (rateLimiter_spacing.1 [0, 0, 0]).2.2 1 0 (by rfl),
   by rfl⟩

/-- C8: evaluated at the papers-batch tool, the claim fails on the code: the
handler's formatter reads the attributes year, venue, publicationVenue,
citationCount and url, none of which is in the field projection
"title,authors,citations.title,citations.abstract" it requests. -/
theorem papersBatch_readsUnrequestedAttributes :
    "year" ∈ papersBatchReadAttributes ∧
    "year" ∉ papersBatchRequestedFields ∧
    ¬ (∀ a ∈ papersBatchReadAttributes, a ∈ papersBatchRequestedFields) := by
  decide

/-- C9: the pagination normalizer is idempotent: re-normalizing an
already-normalized page under the same offset and limit returns the page
unchanged (same data, total and next). -/
theorem normalizePage_idempotent :
    ∀ (offset limit : Nat) (raw : RawListResponse Nat),
      normalizePage offset limit (Page.toRaw (normalizePage offset limit raw)) =
        normalizePage offset limit raw :=
  fun _ _ _ => rfl

theorem SearchFilter.limit_withYearRange (f : SearchFilter)
    (s e : Option Nat) : (f.withYearRange s e).limit = f.limit := rfl

theorem SearchFilter.limit_withMinCitations (f : SearchFilter) (n : Nat) :
    (f.withMinCitations n).limit = f.limit := rfl

theorem SearchFilter.limit_withOpenAccessOnly (f : SearchFilter) :
    f.withOpenAccessOnly.limit = f.limit := rfl

theorem SearchFilter.limit_withFieldsOfStudy (f : SearchFilter)
    (l : List String) : (f.withFieldsOfStudy l).limit = f.limit := rfl

theorem SearchFilter.limit_withPublicationTypes (f : SearchFilter)
    (l : List String) : (f.withPublicationTypes l).limit = f.limit := rfl

theorem SearchFilter.limit_withSort (f : SearchFilter) (k : SortKey)
    (o : SortOrder) : (f.withSort k o).limit = f.limit := rfl

/-- C4: a filter whose free-text query is empty fails at build with
`ConfigurationError` when no structural criterion is set; with at least one
structural criterion set, build succeeds and the compiled query parameter is
the wildcard, substituted by the builder itself. -/
theorem emptyQuery_wildcardSubstitution (f : SearchFilter)
    (hq : f.query = "") :
    (hasStructuralCriterion f = false →
      SearchFilter.build f = .error .emptyQuery) ∧
    (hasStructuralCriterion f = true → f.fields ≠ [] →
      f.limit ≤ searchLimitCeiling →
      SearchFilter.build f = .ok (paramsOf f) ∧
      findParam (paramsOf f) "query" = some ['*']) := by
  constructor
  · intro hs
    simp [SearchFilter.build, buildParamsWith, hq, hs]
  · intro hs hf hl
    have hl' : ¬ searchLimitCeiling < f.limit := by omega
    constructor
    · simp [SearchFilter.build, buildParamsWith, hq, hs, hf, hl']
    · simp [paramsOf, baseParams, findParam, effectiveQueryChars, hq]

theorem emptyQuery_wildcardSubstitution_witness :
    SearchFilter.build (createFilter "") = .error .emptyQuery ∧
    SearchFilter.build sampleEmptyQueryFilter =
      .ok (paramsOf sampleEmptyQueryFilter) ∧
    findParam (paramsOf sampleEmptyQueryFilter) "query" = some ['*'] :=
  ⟨(emptyQuery_wildcardSubstitution (createFilter "") rfl).1 rfl,
   ((emptyQuery_wildcardSubstitution sampleEmptyQueryFilter rfl).2
     rfl (by decide) (by decide)).1,
   ((emptyQuery_wildcardSubstitution sampleEmptyQueryFilter rfl).2
     rfl (by decide) (by decide)).2⟩

/-- C5: `withPagination(offset, limit)` never raises and stores the
caller's offset and limit verbatim; a limit above the service ceiling (100
for search, 500 for batch) makes the compile fail with a
`ConfigurationError` at build time and only there: an otherwise valid
filter within the ceiling builds successfully. -/
theorem withPagination_deferredValidation :
    (∀ (f : SearchFilter) (offset limit : Nat),
      f.withPagination offset limit =
        { f with offset := offset, limit := limit }) ∧
    (∀ (ceiling : Nat) (f : SearchFilter), ceiling < f.limit →
      (buildParamsWith ceiling f).toOption = none) ∧
    (searchLimitCeiling = 100 ∧ batchLimitCeiling = 500) ∧
    (∀ f : SearchFilter, f.query ≠ "" → f.fields ≠ [] →
      f.limit ≤ searchLimitCeiling →
      (SearchFilter.build f).toOption = some (paramsOf f)) := by
  refine ⟨fun f offset limit => rfl, ?_, ⟨rfl, rfl⟩, ?_⟩
  · intro ceiling f h
    unfold buildParamsWith
    split_ifs <;> rfl
  · intro f hq hf hl
    have hl' : ¬ searchLimitCeiling < f.limit := by omega
    simp [SearchFilter.build, buildParamsWith, hq, hf, hl', Except.toOption]

theorem withPagination_deferredValidation_witness :
    (createFilter "x").withPagination 3 7 =
      { createFilter "x" with offset := 3, limit := 7 } ∧
    (buildParamsWith 100 sampleOverLimitFilter).toOption = none ∧
    (SearchFilter.build sampleOkFilter).toOption =
      some (paramsOf sampleOkFilter) :=
  ⟨withPagination_deferredValidation.1 (createFilter "x") 3 7,
   withPagination_deferredValidation.2.1 100 sampleOverLimitFilter (by decide),
   withPagination_deferredValidation.2.2.2 sampleOkFilter (by decide)
     (by decide) (by decide)⟩

/-- C10: in the papers-search-basic and papers-search-advanced handlers a
caller-supplied limit of 0 is silently replaced by the default 10 before the
filter is built (the handlers compute `limit || 10`), so a zero-sized result
page can never be requested through these tools. -/
theorem searchTools_limitDefaulting :
    (∀ (query : String) (limit : Nat),
      (papersSearchBasicFilter query limit).limit =
        (if limit = 0 then 10 else limit) ∧
      (papersSearchBasicFilter query limit).limit ≠ 0) ∧
    (∀ (query : String) (ys ye mc : Option Nat) (oa : Bool) (limit : Nat)
        (fos pt : Option (List String)) (sb : Option SortKey)
        (ord : SortOrder),
      (papersSearchAdvancedFilter query ys ye mc oa limit fos pt sb
          ord).limit =
        (if limit = 0 then 10 else limit) ∧
      (papersSearchAdvancedFilter query ys ye mc oa limit fos pt sb
          ord).limit ≠ 0) := by
  have hbasic : ∀ (query : String) (limit : Nat),
      (papersSearchBasicFilter query limit).limit = jsOrDefault limit 10 :=
    fun _ _ => rfl
  have hadv : ∀ (query : String) (ys ye mc : Option Nat) (oa : Bool)
      (limit : Nat) (fos pt : Option (List String)) (sb : Option SortKey)
      (ord : SortOrder),
      (papersSearchAdvancedFilter query ys ye mc oa limit fos pt sb
        ord).limit = jsOrDefault limit 10 := by
    intro query ys ye mc oa limit fos pt sb ord
    rcases mc with _ | n <;> rcases fos with _ | lf <;> rcases pt with _ | lp
      <;> rcases sb with _ | k <;> cases oa <;>
      simp [papersSearchAdvancedFilter, apply_ite SearchFilter.limit,
        SearchFilter.limit_withYearRange, SearchFilter.limit_withMinCitations,
        SearchFilter.limit_withOpenAccessOnly,
        SearchFilter.limit_withFieldsOfStudy,
        SearchFilter.limit_withPublicationTypes, SearchFilter.limit_withSort]
      <;> rfl
  constructor
  · intro query limit
    rw [hbasic, jsOrDefault]
    refine ⟨rfl, ?_⟩
    split_ifs with h <;> omega
  · intro query ys ye mc oa limit fos pt sb ord
    rw [hadv, jsOrDefault]
    refine ⟨rfl, ?_⟩
    split_ifs with h <;> omega

theorem searchTools_limitDefaulting_witness :
    ((papersSearchBasicFilter "ai" 0).limit = 10 ∧
      (papersSearchBasicFilter "ai" 0).limit ≠ 0) ∧
    ((papersSearchAdvancedFilter "ai" none none none false 0 none none none
        .desc).limit = 10 ∧
      (papersSearchAdvancedFilter "ai" none none none false 0 none none none
        .desc).limit ≠ 0) :=
  ⟨searchTools_limitDefaulting.1 "ai" 0,
   searchTools_limitDefaulting.2 "ai" none none none false 0 none none none
     .desc⟩

theorem digitChar_isDigit : ∀ d : Nat, d < 10 →
    (Nat.digitChar d).isDigit = true := by decide

theorem digitChar_val : ∀ d : Nat, d < 10 →
    (Nat.digitChar d).toNat - 48 = d := by decide

theorem mem_natCharsAux_isDigit :
    ∀ fuel n : Nat, ∀ c ∈ natCharsAux fuel n, c.isDigit = true := by
  intro fuel
  induction fuel with
  | zero => intro n c hc; simp [natCharsAux] at hc
  | succ fuel ih =>
    intro n c hc
    by_cases hn : n = 0
    · simp [natCharsAux, hn] at hc
    · simp only [natCharsAux, if_neg hn, List.mem_append,
        List.mem_singleton] at hc
      rcases hc with hc | rfl
      · exact ih _ c hc
      · exact digitChar_isDigit _ (Nat.mod_lt n (by norm_num))

theorem mem_natChars_isDigit (n : Nat) :
    ∀ c ∈ natChars n, c.isDigit = true := by
  intro c hc
  unfold natChars at hc
  by_cases hn : n = 0
  · rw [if_pos hn] at hc
    simp only [List.mem_singleton] at hc
    subst hc
    decide
  · rw [if_neg hn] at hc
    exact mem_natCharsAux_isDigit n n c hc

theorem hyphen_not_mem_optNatChars (s : Option Nat) :
    '-' ∉ optNatChars s := by
  cases s with
  | none => simp [optNatChars]
  | some n =>
    intro hc
    exact absurd (mem_natChars_isDigit n '-' hc) (by decide)

theorem charsNatAux_append (xs ys : List Char) :
    ∀ acc : Nat, charsNatAux acc (xs ++ ys) =
      (charsNatAux acc xs).bind fun a => charsNatAux a ys := by
  induction xs with
  | nil => intro acc; rfl
  | cons c cs ih =>
    intro acc
    simp only [List.cons_append, charsNatAux]
    by_cases hc : c.isDigit
    · rw [if_pos hc, if_pos hc]
      exact ih _
    · rw [if_neg hc, if_neg hc]
      rfl

theorem charsNatAux_natCharsAux :
    ∀ fuel n acc : Nat, n ≤ fuel →
      charsNatAux acc (natCharsAux fuel n) =
        some (acc * 10 ^ (natCharsAux fuel n).length + n) := by
  intro fuel
  induction fuel with
  | zero =>
    intro n acc h
    have hn : n = 0 := by omega
    subst hn
    simp [natCharsAux, charsNatAux]
  | succ fuel ih =>
    intro n acc h
    by_cases hn : n = 0
    · subst hn
      simp [natCharsAux, charsNatAux]
    · have hdiv : n / 10 ≤ fuel := by
        have := Nat.div_lt_self (Nat.pos_of_ne_zero hn)
          (by norm_num : 1 < 10)
        omega
      have hmod : n % 10 < 10 := Nat.mod_lt _ (by norm_num)
      simp only [natCharsAux, if_neg hn]
      rw [charsNatAux_append, ih (n / 10) acc hdiv]
      simp only [Option.some_bind, charsNatAux,
        if_pos (digitChar_isDigit _ hmod), digitChar_val _ hmod,
        List.length_append, List.length_singleton]
      congr 1
      calc (acc * 10 ^ (natCharsAux fuel (n / 10)).length + n / 10) * 10 +
            n % 10
          = acc * (10 ^ (natCharsAux fuel (n / 10)).length * 10) +
            (10 * (n / 10) + n % 10) := by ring
        _ = acc * 10 ^ ((natCharsAux fuel (n / 10)).length + 1) + n := by
            rw [Nat.div_add_mod, pow_succ]

theorem natChars_ne_nil (n : Nat) : natChars n ≠ [] := by
  unfold natChars
  by_cases hn : n = 0
  · rw [if_pos hn]; simp
  · rw [if_neg hn]
    cases n with
    | zero => exact absurd rfl hn
    | succ m =>
      simp [natCharsAux]

theorem charsNat?_natChars (n : Nat) : charsNat? (natChars n) = some n := by
  unfold charsNat?
  rw [if_neg (natChars_ne_nil n)]
  by_cases hn : n = 0
  · subst hn; decide
  · conv_lhs => rw [natChars, if_neg hn]
    rw [charsNatAux_natCharsAux n n 0 le_rfl]
    simp

theorem splitCh_ne_nil (c : Char) (xs : List Char) : splitCh c xs ≠ [] := by
  cases xs with
  | nil => simp [splitCh]
  | cons x xs =>
    simp only [splitCh]
    cases h : splitCh c xs with
    | nil => simp
    | cons hd tl => split_ifs <;> simp

theorem splitCh_of_not_mem (c : Char) (xs : List Char) (h : c ∉ xs) :
    splitCh c xs = [xs] := by
  induction xs with
  | nil => rfl
  | cons x xs ih =>
    have hx : ¬ x = c := fun e => h (e ▸ List.mem_cons_self x xs)
    have h' : c ∉ xs := fun hc => h (List.mem_cons_of_mem _ hc)
    simp only [splitCh, ih h', if_neg hx]

theorem splitCh_append (c : Char) (xs ys : List Char) (h : c ∉ xs) :
    splitCh c (xs ++ c :: ys) = xs :: splitCh c ys := by
  induction xs with
  | nil =>
    simp only [List.nil_append, splitCh]
    cases hs : splitCh c ys with
    | nil => exact absurd hs (splitCh_ne_nil c ys)
    | cons hd tl => simp
  | cons x xs ih =>
    have hx : ¬ x = c := fun e => h (e ▸ List.mem_cons_self x xs)
    have h' : c ∉ xs := fun hc => h (List.mem_cons_of_mem _ hc)
    have hih : splitCh c (xs.append (c :: ys)) = xs :: splitCh c ys := ih h'
    simp only [List.cons_append, splitCh, hih, if_neg hx]

theorem splitCh_joinCh (c : Char) (l : List (List Char)) (hne : l ≠ [])
    (h : ∀ p ∈ l, c ∉ p) : splitCh c (joinCh c l) = l := by
  induction l with
  | nil => exact absurd rfl hne
  | cons x l ih =>
    cases l with
    | nil => exact splitCh_of_not_mem c x (h x (List.mem_cons_self _ _))
    | cons y t =>
      have hx : c ∉ x := h x (List.mem_cons_self _ _)
      simp only [joinCh]
      rw [splitCh_append c x _ hx,
        ih (by simp) fun p hp => h p (List.mem_cons_of_mem _ hp)]

theorem parseYearPiece_optNatChars (s : Option Nat) :
    parseYearPiece (optNatChars s) = some s := by
  cases s with
  | none => rfl
  | some n =>
    unfold parseYearPiece optNatChars
    rw [if_neg (natChars_ne_nil n), charsNat?_natChars n]

theorem parseYearVal_render (s e : Option Nat) :
    parseYearVal (optNatChars s ++ '-' :: optNatChars e) = some (s, e) := by
  unfold parseYearVal
  rw [splitCh_append '-' _ _ (hyphen_not_mem_optNatChars s),
    splitCh_of_not_mem '-' _ (hyphen_not_mem_optNatChars e)]
  simp [parseYearPiece_optNatChars]

theorem parseSortVal_render (k : SortKey) (o : SortOrder) :
    parseSortVal (sortKeyChars k ++ ':' :: sortOrderChars o) = some (k, o) := by
  cases k <;> cases o <;> rfl

theorem stringMk_data (s : String) : String.mk s.data = s := rfl

theorem parseTokens_render (l : List String) (hne : l ≠ [])
    (h : ∀ s ∈ l, ',' ∉ s.data) :
    parseTokens (joinCh ',' (l.map String.data)) = some l := by
  unfold parseTokens
  rw [splitCh_joinCh ',' (l.map String.data) (by simpa using hne) ?_]
  · have hcomp : ((fun cs => String.mk cs) ∘ String.data) = id :=
      funext fun s => rfl
    rw [List.map_map, hcomp, List.map_id]
  · intro p hp
    rcases List.mem_map.mp hp with ⟨s, hs, rfl⟩
    exact h s hs

theorem findParam_append_left (key : String)
    (xs ys : List (String × List Char)) (h : ∀ p ∈ xs, p.1 ≠ key) :
    findParam (xs ++ ys) key = findParam ys key := by
  induction xs with
  | nil => rfl
  | cons p xs ih =>
    have hp : ¬ p.1 = key := h p (List.mem_cons_self _ _)
    have h' : ∀ q ∈ xs, q.1 ≠ key := fun q hq => h q (List.mem_cons_of_mem _ hq)
    cases p with
    | mk k v =>
      simp only [List.cons_append, findParam, if_neg hp]
      exact ih h'

theorem findParam_none (key : String) (ps : List (String × List Char))
    (h : ∀ p ∈ ps, p.1 ≠ key) : findParam ps key = none := by
  have := findParam_append_left key ps [] h
  simpa using this

theorem yearBlock_keys (f : SearchFilter) :
    ∀ p ∈ yearBlock f, p.1 = "year" := by
  intro p hp
  unfold yearBlock at hp
  cases h : f.yearRange with
  | none => rw [h] at hp; simp at hp
  | some se =>
    rw [h] at hp
    cases se with
    | mk s e => simp at hp; rw [hp]

theorem minCitBlock_keys (f : SearchFilter) :
    ∀ p ∈ minCitBlock f, p.1 = "minCitationCount" := by
  intro p hp
  unfold minCitBlock at hp
  cases h : f.minCitations with
  | none => rw [h] at hp; simp at hp
  | some n => rw [h] at hp; simp at hp; rw [hp]

theorem oaBlock_keys (f : SearchFilter) :
    ∀ p ∈ oaBlock f, p.1 = "openAccessPdf" := by
  intro p hp
  unfold oaBlock at hp
  cases h : f.openAccessOnly with
  | false => rw [h] at hp; simp at hp
  | true => rw [h] at hp; simp at hp; rw [hp]

theorem fosBlock_keys (f : SearchFilter) :
    ∀ p ∈ fosBlock f, p.1 = "fieldsOfStudy" := by
  intro p hp
  unfold fosBlock at hp
  cases h : f.fieldsOfStudy with
  | none => rw [h] at hp; simp at hp
  | some l => rw [h] at hp; simp at hp; rw [hp]

theorem ptBlock_keys (f : SearchFilter) :
    ∀ p ∈ ptBlock f, p.1 = "publicationTypes" := by
  intro p hp
  unfold ptBlock at hp
  cases h : f.publicationTypes with
  | none => rw [h] at hp; simp at hp
  | some l => rw [h] at hp; simp at hp; rw [hp]

theorem sortBlock_keys (f : SearchFilter) :
    ∀ p ∈ sortBlock f, p.1 = "sort" := by
  intro p hp
  unfold sortBlock at hp
  cases h : f.sort with
  | none => rw [h] at hp; simp at hp
  | some ko =>
    rw [h] at hp
    cases ko with
    | mk k o => simp at hp; rw [hp]

theorem findParam_cons_self (k : String) (v : List Char)
    (ps : List (String × List Char)) :
    findParam ((k, v) :: ps) k = some v := by
  simp [findParam]

theorem findParam_skip_base (f : SearchFilter)
    (rest : List (String × List Char)) (key : String) (h1 : key ≠ "query")
    (h2 : key ≠ "fields") (h3 : key ≠ "offset") (h4 : key ≠ "limit") :
    findParam (baseParams f ++ rest) key = findParam rest key := by
  refine findParam_append_left key _ rest ?_
  intro p hp
  unfold baseParams at hp
  simp only [List.mem_cons, List.not_mem_nil, or_false] at hp
  rcases hp with rfl | rfl | rfl | rfl
  · exact fun e => h1 e.symm
  · exact fun e => h2 e.symm
  · exact fun e => h3 e.symm
  · exact fun e => h4 e.symm

theorem findParam_skip_year (f : SearchFilter)
    (rest : List (String × List Char)) (key : String) (h : key ≠ "year") :
    findParam (yearBlock f ++ rest) key = findParam rest key := by
  refine findParam_append_left key _ rest ?_
  intro p hp e
  have hk := yearBlock_keys f p hp
  rw [e] at hk
  exact h hk

theorem findParam_skip_minCit (f : SearchFilter)
    (rest : List (String × List Char)) (key : String)
    (h : key ≠ "minCitationCount") :
    findParam (minCitBlock f ++ rest) key = findParam rest key := by
  refine findParam_append_left key _ rest ?_
  intro p hp e
  have hk := minCitBlock_keys f p hp
  rw [e] at hk
  exact h hk

theorem findParam_skip_oa (f : SearchFilter)
    (rest : List (String × List Char)) (key : String)
    (h : key ≠ "openAccessPdf") :
    findParam (oaBlock f ++ rest) key = findParam rest key := by
  refine findParam_append_left key _ rest ?_
  intro p hp e
  have hk := oaBlock_keys f p hp
  rw [e] at hk
  exact h hk

theorem findParam_skip_fos (f : SearchFilter)
    (rest : List (String × List Char)) (key : String)
    (h : key ≠ "fieldsOfStudy") :
    findParam (fosBlock f ++ rest) key = findParam rest key := by
  refine findParam_append_left key _ rest ?_
  intro p hp e
  have hk := fosBlock_keys f p hp
  rw [e] at hk
  exact h hk

theorem findParam_skip_pt (f : SearchFilter)
    (rest : List (String × List Char)) (key : String)
    (h : key ≠ "publicationTypes") :
    findParam (ptBlock f ++ rest) key = findParam rest key := by
  refine findParam_append_left key _ rest ?_
  intro p hp e
  have hk := ptBlock_keys f p hp
  rw [e] at hk
  exact h hk

theorem findParam_paramsOf_year (f : SearchFilter) :
    findParam (paramsOf f) "year" =
      Option.map (fun se => optNatChars se.1 ++ '-' :: optNatChars se.2)
        f.yearRange := by
  unfold paramsOf
  rw [findParam_skip_base f _ "year" (by decide) (by decide) (by decide)
    (by decide)]
  cases h : f.yearRange with
  | some se =>
    cases se with
    | mk s e =>
      unfold yearBlock
      rw [h]
      simp [findParam_cons_self]
  | none =>
    unfold yearBlock
    rw [h]
    rw [List.nil_append,
      findParam_skip_minCit f _ "year" (by decide),
      findParam_skip_oa f _ "year" (by decide),
      findParam_skip_fos f _ "year" (by decide),
      findParam_skip_pt f _ "year" (by decide)]
    rw [findParam_none "year" (sortBlock f) ?_]
    · rfl
    · intro p hp e
      have hk := sortBlock_keys f p hp
      rw [e] at hk
      exact absurd hk (by decide)

theorem findParam_paramsOf_minCit (f : SearchFilter) :
    findParam (paramsOf f) "minCitationCount" =
      Option.map natChars f.minCitations := by
  unfold paramsOf
  rw [findParam_skip_base f _ "minCitationCount" (by decide) (by decide)
    (by decide) (by decide),
    findParam_skip_year f _ "minCitationCount" (by decide)]
  cases h : f.minCitations with
  | some n =>
    unfold minCitBlock
    rw [h]
    simp [findParam_cons_self]
  | none =>
    unfold minCitBlock
    rw [h]
    rw [List.nil_append,
      findParam_skip_oa f _ "minCitationCount" (by decide),
      findParam_skip_fos f _ "minCitationCount" (by decide),
      findParam_skip_pt f _ "minCitationCount" (by decide)]
    rw [findParam_none "minCitationCount" (sortBlock f) ?_]
    · rfl
    · intro p hp e
      have hk := sortBlock_keys f p hp
      rw [e] at hk
      exact absurd hk (by decide)

theorem findParam_paramsOf_oa (f : SearchFilter) :
    findParam (paramsOf f) "openAccessPdf" =
      (if f.openAccessOnly then some ([] : List Char) else none) := by
  unfold paramsOf
  rw [findParam_skip_base f _ "openAccessPdf" (by decide) (by decide)
    (by decide) (by decide),
    findParam_skip_year f _ "openAccessPdf" (by decide),
    findParam_skip_minCit f _ "openAccessPdf" (by decide)]
  cases h : f.openAccessOnly with
  | true =>
    unfold oaBlock
    rw [h]
    simp [findParam_cons_self]
  | false =>
    unfold oaBlock
    rw [h]
    rw [if_neg (show ¬ (false = true) by decide), List.nil_append]
    rw [findParam_skip_fos f _ "openAccessPdf" (by decide),
      findParam_skip_pt f _ "openAccessPdf" (by decide)]
    rw [findParam_none "openAccessPdf" (sortBlock f) ?_]
    · rfl
    · intro p hp e
      have hk := sortBlock_keys f p hp
      rw [e] at hk
      exact absurd hk (by decide)

theorem findParam_paramsOf_fos (f : SearchFilter) :
    findParam (paramsOf f) "fieldsOfStudy" =
      Option.map (fun l => joinCh ',' (l.map String.data))
        f.fieldsOfStudy := by
  unfold paramsOf
  rw [findParam_skip_base f _ "fieldsOfStudy" (by decide) (by decide)
    (by decide) (by decide),
    findParam_skip_year f _ "fieldsOfStudy" (by decide),
    findParam_skip_minCit f _ "fieldsOfStudy" (by decide),
    findParam_skip_oa f _ "fieldsOfStudy" (by decide)]
  cases h : f.fieldsOfStudy with
  | some l =>
    unfold fosBlock
    rw [h]
    simp [findParam_cons_self]
  | none =>
    unfold fosBlock
    rw [h]
    rw [List.nil_append,
      findParam_skip_pt f _ "fieldsOfStudy" (by decide)]
    rw [findParam_none "fieldsOfStudy" (sortBlock f) ?_]
    · rfl
    · intro p hp e
      have hk := sortBlock_keys f p hp
      rw [e] at hk
      exact absurd hk (by decide)

theorem findParam_paramsOf_pt (f : SearchFilter) :
    findParam (paramsOf f) "publicationTypes" =
      Option.map (fun l => joinCh ',' (l.map String.data))
        f.publicationTypes := by
  unfold paramsOf
  rw [findParam_skip_base f _ "publicationTypes" (by decide) (by decide)
    (by decide) (by decide),
    findParam_skip_year f _ "publicationTypes" (by decide),
    findParam_skip_minCit f _ "publicationTypes" (by decide),
    findParam_skip_oa f _ "publicationTypes" (by decide),
    findParam_skip_fos f _ "publicationTypes" (by decide)]
  cases h : f.publicationTypes with
  | some l =>
    unfold ptBlock
    rw [h]
    simp [findParam_cons_self]
  | none =>
    unfold ptBlock
    rw [h]
    rw [List.nil_append]
    rw [findParam_none "publicationTypes" (sortBlock f) ?_]
    · rfl
    · intro p hp e
      have hk := sortBlock_keys f p hp
      rw [e] at hk
      exact absurd hk (by decide)

theorem findParam_paramsOf_sort (f : SearchFilter) :
    findParam (paramsOf f) "sort" =
      Option.map (fun ko => sortKeyChars ko.1 ++ ':' :: sortOrderChars ko.2)
        f.sort := by
  unfold paramsOf
  rw [findParam_skip_base f _ "sort" (by decide) (by decide) (by decide)
    (by decide),
    findParam_skip_year f _ "sort" (by decide),
    findParam_skip_minCit f _ "sort" (by decide),
    findParam_skip_oa f _ "sort" (by decide),
    findParam_skip_fos f _ "sort" (by decide),
    findParam_skip_pt f _ "sort" (by decide)]
  cases h : f.sort with
  | some ko =>
    cases ko with
    | mk k o =>
      unfold sortBlock
      rw [h]
      simp [findParam_cons_self]
  | none =>
    unfold sortBlock
    rw [h]
    rfl

theorem parseOptParam_paramsOf_year (f : SearchFilter) :
    parseOptParam (paramsOf f) "year" parseYearVal = some f.yearRange := by
  unfold parseOptParam
  rw [findParam_paramsOf_year f]
  cases h : f.yearRange with
  | none => rfl
  | some se =>
    cases se with
    | mk s e =>
      simp [parseYearVal_render]

theorem parseOptParam_paramsOf_minCit (f : SearchFilter) :
    parseOptParam (paramsOf f) "minCitationCount" charsNat? =
      some f.minCitations := by
  unfold parseOptParam
  rw [findParam_paramsOf_minCit f]
  cases h : f.minCitations with
  | none => rfl
  | some n => simp [charsNat?_natChars]

theorem parseOptParam_paramsOf_fos (f : SearchFilter)
    (hv : validTokens f.fieldsOfStudy) :
    parseOptParam (paramsOf f) "fieldsOfStudy" parseTokens =
      some f.fieldsOfStudy := by
  unfold parseOptParam
  rw [findParam_paramsOf_fos f]
  cases h : f.fieldsOfStudy with
  | none => rfl
  | some l =>
    rw [h] at hv
    simp [parseTokens_render l hv.1 hv.2]

theorem parseOptParam_paramsOf_pt (f : SearchFilter)
    (hv : validTokens f.publicationTypes) :
    parseOptParam (paramsOf f) "publicationTypes" parseTokens =
      some f.publicationTypes := by
  unfold parseOptParam
  rw [findParam_paramsOf_pt f]
  cases h : f.publicationTypes with
  | none => rfl
  | some l =>
    rw [h] at hv
    simp [parseTokens_render l hv.1 hv.2]

theorem parseOptParam_paramsOf_sort (f : SearchFilter) :
    parseOptParam (paramsOf f) "sort" parseSortVal = some f.sort := by
  unfold parseOptParam
  rw [findParam_paramsOf_sort f]
  cases h : f.sort with
  | none => rfl
  | some ko =>
    cases ko with
    | mk k o => simp [parseSortVal_render]

theorem findParam_paramsOf_oa_isSome (f : SearchFilter) :
    (findParam (paramsOf f) "openAccessPdf").isSome = f.openAccessOnly := by
  rw [findParam_paramsOf_oa f]
  cases f.openAccessOnly <;> rfl

theorem parseStructural_paramsOf (f : SearchFilter)
    (hfos : validTokens f.fieldsOfStudy)
    (hpt : validTokens f.publicationTypes) :
    parseStructural (paramsOf f) = some (structuralOf f) := by
  unfold parseStructural
  rw [parseOptParam_paramsOf_year f, parseOptParam_paramsOf_minCit f,
    parseOptParam_paramsOf_fos f hfos, parseOptParam_paramsOf_pt f hpt,
    parseOptParam_paramsOf_sort f]
  simp only [Option.some_bind]
  rw [findParam_paramsOf_oa_isSome f]
  rfl

/-- C7: for every valid filter, compiling with build (against any service
ceiling) and then parsing the compiled query string under the upstream
grammar (`year=start-end` open on either end, the boolean flag rendered only
when true, sort as `key:order`, field lists comma-joined) recovers exactly
the structural criteria that were set: none lost, added, or altered. -/
theorem build_parse_roundTrip (ceiling : Nat) (f : SearchFilter)
    (ps : List (String × List Char)) (hfos : validTokens f.fieldsOfStudy)
    (hpt : validTokens f.publicationTypes)
    (hok : buildParamsWith ceiling f = .ok ps) :
    parseStructural ps = some (structuralOf f) := by
  have hps : ps = paramsOf f := by
    unfold buildParamsWith at hok
    split_ifs at hok
    exact (Except.ok.inj hok).symm
  rw [hps]
  exact parseStructural_paramsOf f hfos hpt

theorem build_parse_roundTrip_witness :
    parseStructural (paramsOf sampleFullFilter) =
      some (structuralOf sampleFullFilter) :=
  build_parse_roundTrip 100 sampleFullFilter (paramsOf sampleFullFilter)
    (by refine ⟨?_, ?_⟩ <;> decide)
    (by refine ⟨?_, ?_⟩ <;> decide)
    (by rfl)
